import Mathlib

/-!
Shallow embedding of the trajectory module of the MercuryTools repository
(src/hermpy/trajectory.py), together with proofs of the specification
claims about it.

Modelling conventions:
* The SPICE ephemeris provider is external; every function that queries it
  takes the query as an explicit function argument (an epoch is mapped to a
  position vector).  A position is a 3-vector of reals.
* Floating point arithmetic is modelled by real arithmetic; the apoapsis
  search pipeline, whose data are sample times and altitudes, is modelled
  over the rationals so that concrete runs can be checked by evaluation.
* scipy.signal.find_peaks is an external library routine; it is modelled by
  its documented simple-comparison behaviour, which the specification
  restates: a sample is a peak iff it is strictly higher than both of its
  immediate neighbours, so a boundary sample is never a peak.
* A raised Python exception is modelled by the error case of Except.
-/

/-- A 3-component position vector in kilometres (components x, y, z). -/
structure Vec3 where
  x : ℝ
  y : ℝ
  z : ℝ

/-- The reference frame selector of Get_Trajectory: the string argument
frame takes the values MSO and MSM in the source. -/
inductive Frame where
  | MSO : Frame
  | MSM : Frame
deriving DecidableEq, Repr

/-- Heliocentric distance of Mercury at an epoch, as computed inside
Aberrate_Position from the ephemeris answer: the euclidean norm of the
Mercury-to-Sun position vector. -/
noncomputable def heliocentric_distance (mercurySpk : ℝ → Vec3) (spice_date : ℝ) : ℝ :=
  let mercury_position := mercurySpk spice_date
  Real.sqrt (mercury_position.x ^ 2 + mercury_position.y ^ 2 + mercury_position.z ^ 2)

/-- Aberrate_Position from src/hermpy/trajectory.py.  The argument
mercurySpk models the SPICE query spkpos(MERCURY, spice_date, J2000, NONE,
SUN).  The rotation matrix application is written out componentwise; the
third row of the matrix is (0, 0, 1). -/
noncomputable def Aberrate_Position (mercurySpk : ℝ → Vec3) (position : Vec3)
    (spice_date : ℝ) : Vec3 :=
  let mercury_distance := heliocentric_distance mercurySpk spice_date
  let a : ℝ := 57909050 * 1000
  let M : ℝ := 1.9891e30
  let G : ℝ := 6.6743e-11
  let orbital_velocity := Real.sqrt (G * M * ((2 / mercury_distance) - (1 / a)))
  let aberration_angle := Real.arctan (orbital_velocity / 400000) * (Real.pi / 180)
  { x := Real.cos aberration_angle * position.x - Real.sin aberration_angle * position.y
    y := Real.sin aberration_angle * position.x + Real.cos aberration_angle * position.y
    z := position.z }

/-- Rotation of a 3-vector about the z axis by a given angle: the standard
2-D rotation embedded in 3 dimensions. -/
noncomputable def rotateZ (angle : ℝ) (p : Vec3) : Vec3 :=
  { x := Real.cos angle * p.x - Real.sin angle * p.y
    y := Real.sin angle * p.x + Real.cos angle * p.y
    z := p.z }

/-- The rotation angle as documented by the specification: atan(v / 400000)
scaled by pi / 180, where v = sqrt(G * M * (2 / r - 1 / a)) is the vis-viva
orbital speed at heliocentric distance r. -/
noncomputable def specAberrationAngle (r : ℝ) : ℝ :=
  Real.arctan (Real.sqrt (6.6743e-11 * 1.9891e30 * (2 / r - 1 / (57909050 * 1000))) / 400000)
    * (Real.pi / 180)

/-- The epoch list built inside Get_Trajectory:
steps equally spaced epochs x * (et_two - et_one) / steps + et_one for x in
range(steps). -/
noncomputable def trajectory_times (et_one et_two : ℝ) (steps : ℕ) : List ℝ :=
  (List.range steps).map (fun (x : ℕ) => (x : ℝ) * (et_two - et_one) / steps + et_one)

/-- Get_Trajectory from src/hermpy/trajectory.py, after the two date strings
have been resolved to the epochs et_one and et_two.  The argument spk models
the batch SPICE query spkpos(spacecraft, times, BC_MSO, NONE, MERCURY) one
epoch at a time; mercurySpk is passed through to Aberrate_Position.  When
the aberrate flag is set each position is replaced by its aberrated image at
the matching epoch; the MSM frame then adds 479 km to the z component of
every sample. -/
noncomputable def Get_Trajectory (spk : ℝ → Vec3) (mercurySpk : ℝ → Vec3)
    (et_one et_two : ℝ) (steps : ℕ) (frame : Frame) (aberrate : Bool) : List Vec3 :=
  let times := trajectory_times et_one et_two steps
  let positions := times.map spk
  let positions :=
    if aberrate then
      (positions.zip times).map (fun pt => Aberrate_Position mercurySpk pt.1 pt.2)
    else positions
  match frame with
  | Frame.MSO => positions
  | Frame.MSM => positions.map (fun p => { x := p.x, y := p.y, z := p.z + 479 })

/-- CLAIM C2: with start epoch strictly before end epoch and steps at least
1, Get_Trajectory samples exactly steps epochs, the first sampled epoch is
the start epoch, every sampled epoch is strictly below the end epoch, and
the returned trajectory has exactly steps positions. -/
theorem get_trajectory_sampling (spk mercurySpk : ℝ → Vec3) (et_one et_two : ℝ)
    (steps : ℕ) (frame : Frame) (aberrate : Bool)
    (horder : et_one < et_two) (hsteps : 1 ≤ steps) :
    (trajectory_times et_one et_two steps).length = steps ∧
    (trajectory_times et_one et_two steps).headI = et_one ∧
    (∀ t ∈ trajectory_times et_one et_two steps, t < et_two) ∧
    (Get_Trajectory spk mercurySpk et_one et_two steps frame aberrate).length = steps := by
  have hlen : (trajectory_times et_one et_two steps).length = steps := by
    rw [trajectory_times, List.length_map, List.length_range]
  refine ⟨hlen, ?_, ?_, ?_⟩
  · cases steps with
    | zero => omega
    | succ n =>
        rw [trajectory_times, List.range_succ_eq_map, List.map_cons, List.headI]
        norm_num
  · intro t ht
    rw [trajectory_times, List.mem_map] at ht
    obtain ⟨x, hx, rfl⟩ := ht
    rw [List.mem_range] at hx
    have hs : (0 : ℝ) < steps := by positivity
    have hd : (0 : ℝ) < et_two - et_one := by linarith
    have hxs : (x : ℝ) < steps := by exact_mod_cast hx
    have : (x : ℝ) * (et_two - et_one) / steps < et_two - et_one := by
      rw [div_lt_iff₀ hs]
      calc (x : ℝ) * (et_two - et_one) < steps * (et_two - et_one) := by
            exact mul_lt_mul_of_pos_right hxs hd
        _ = (et_two - et_one) * steps := by ring
    linarith
  · cases frame <;> cases aberrate <;> simp [Get_Trajectory, hlen]

/-- Concrete instance discharging the hypotheses of get_trajectory_sampling
at the epochs 0 and 1 with 2 steps. -/
theorem get_trajectory_sampling_witness :
    (0 : ℝ) < 1 ∧ (1 : ℕ) ≤ 2 ∧
    ((trajectory_times 0 1 2).length = 2 ∧
     (trajectory_times 0 1 2).headI = 0 ∧
     (∀ t ∈ trajectory_times 0 1 2, t < 1) ∧
     (Get_Trajectory (fun _ => ⟨1, 0, 0⟩) (fun _ => ⟨1, 0, 0⟩) 0 1 2
        Frame.MSO false).length = 2) :=
  ⟨by norm_num, by norm_num,
    get_trajectory_sampling (fun _ => ⟨1, 0, 0⟩) (fun _ => ⟨1, 0, 0⟩) 0 1 2
      Frame.MSO false (by norm_num) (by norm_num)⟩

/-- CLAIM C7: for every sample, requesting the MSM (dipole-shifted) frame
adds exactly 479 km to the third component and leaves the first two
unchanged relative to the MSO result, and the shift is applied to the
already-aberrated positions whenever the aberration flag is set. -/
theorem get_trajectory_msm_shift (spk mercurySpk : ℝ → Vec3) (et_one et_two : ℝ)
    (steps : ℕ) (aberrate : Bool) :
    Get_Trajectory spk mercurySpk et_one et_two steps Frame.MSM aberrate
      = (Get_Trajectory spk mercurySpk et_one et_two steps Frame.MSO aberrate).map
          (fun p => { x := p.x, y := p.y, z := p.z + 479 }) := by
  cases aberrate <;> rfl

/-- CLAIM C1: for every position and epoch, Aberrate_Position rotates by
exactly the documented angle atan(v / 400000) * (pi / 180) with
v = sqrt(G * M * (2 / r - 1 / a)), r the heliocentric distance of Mercury at
that epoch, a = 57909050 * 1000, M = 1.9891e30, G = 6.6743e-11; the pi / 180
scaling of the already-radian angle included. -/
theorem aberrate_position_angle_formula (mercurySpk : ℝ → Vec3) (position : Vec3)
    (spice_date : ℝ) :
    Aberrate_Position mercurySpk position spice_date
      = rotateZ (specAberrationAngle (heliocentric_distance mercurySpk spice_date)) position := by
  rfl

/-- CLAIM C8: for every input position and epoch, the position returned by
Aberrate_Position has its third (z) component equal to the third
component. -/
theorem aberrate_position_preserves_z (mercurySpk : ℝ → Vec3) (position : Vec3)
    (spice_date : ℝ) :
    (Aberrate_Position mercurySpk position spice_date).z = position.z := by
  rfl

/-- CLAIM C9: the rotation applied by Aberrate_Position is orthonormal in
the plane of rotation: the magnitude of the (x, y) projection of the
output equals the magnitude of the (x, y) projection of the input, exactly
over real arithmetic (stated both for the magnitudes and for their
squares). -/
theorem aberrate_position_orthonormal (mercurySpk : ℝ → Vec3) (position : Vec3)
    (spice_date : ℝ) :
    Real.sqrt ((Aberrate_Position mercurySpk position spice_date).x ^ 2
        + (Aberrate_Position mercurySpk position spice_date).y ^ 2)
      = Real.sqrt (position.x ^ 2 + position.y ^ 2) ∧
    (Aberrate_Position mercurySpk position spice_date).x ^ 2
        + (Aberrate_Position mercurySpk position spice_date).y ^ 2
      = position.x ^ 2 + position.y ^ 2 := by
  have hsq : (Aberrate_Position mercurySpk position spice_date).x ^ 2
        + (Aberrate_Position mercurySpk position spice_date).y ^ 2
      = position.x ^ 2 + position.y ^ 2 := by
    show (Real.cos _ * position.x - Real.sin _ * position.y) ^ 2
        + (Real.sin _ * position.x + Real.cos _ * position.y) ^ 2
      = position.x ^ 2 + position.y ^ 2
    linear_combination (position.x ^ 2 + position.y ^ 2) *
      Real.sin_sq_add_cos_sq
        (Real.arctan (Real.sqrt (6.6743e-11 * 1.9891e30 *
          ((2 / heliocentric_distance mercurySpk spice_date) - (1 / (57909050 * 1000)))) / 400000)
          * (Real.pi / 180))
  exact ⟨by rw [hsq], hsq⟩

/-- The sampling loop of the apoapsis search functions: starting from
start, record the current time and advance by the (positive) step while
the current time is strictly below stop.  The timeline is modelled by the
integers (the datetime timeline of the source is discrete at microsecond
resolution).  The loop is driven by a fuel counter that bounds the number
of iterations; (stop - start).toNat is enough fuel for any step of at
least one unit, and once the guard current < stop fails the fuel is
irrelevant. -/
def sampleTimesAux (stop delta : ℤ) : ℕ → ℤ → List ℤ
  | 0, _ => []
  | fuel + 1, current =>
    if current < stop then current :: sampleTimesAux stop delta fuel (current + delta)
    else []

/-- The sampled time series from start up to but excluding stop at step
delta: the times visited by the loop while current < stop. -/
def sampleTimes (start stop delta : ℤ) : List ℤ :=
  sampleTimesAux stop delta (stop - start).toNat start

/-- The scipy.signal.find_peaks call of the source, modelled by its
documented simple-comparison behaviour: index i is a peak of the altitude
sequence iff it has a neighbour on each side and is strictly higher than
both.  Returns the peak indices in increasing order. -/
def find_peaks (altitudes : List ℚ) : List ℕ :=
  (List.range altitudes.length).filter
    (fun i => decide (0 < i ∧ i + 1 < altitudes.length ∧
      altitudes.getD (i - 1) 0 < altitudes.getD i 0 ∧
      altitudes.getD (i + 1) 0 < altitudes.getD i 0))

/-- np.argmin over a list of time distances, returning the index of the
first minimum paired with the minimum value, or none on an empty list
(where np.argmin raises a ValueError). -/
def argminAux : List ℤ → Option (ℕ × ℤ)
  | [] => none
  | x :: xs =>
    match argminAux xs with
    | none => some (0, x)
    | some (j, v) => if x ≤ v then some (0, x) else some (j + 1, v)

/-- One pass of the reduction loop of Get_All_Apoapsis_In_Range, driven by
a fuel counter: while more apoapses remain than the requested orbit count,
compare the distances of the first and last apoapsis times to the midpoint
of the interval; delete the first entry of both parallel lists when it is
strictly farther, the last when that one is strictly farther, and raise
ValueError on a tie.  Each iteration shortens the lists by one, so the
initial length is enough fuel. -/
def reduceApoapsesAux (midpoint : ℤ) (number_of_orbits_to_include : ℕ) :
    ℕ → List ℤ → List ℚ → Except String (List ℤ × List ℚ)
  | 0, apoapsis_times, apoapsis_altitudes => Except.ok (apoapsis_times, apoapsis_altitudes)
  | fuel + 1, apoapsis_times, apoapsis_altitudes =>
    if number_of_orbits_to_include < apoapsis_altitudes.length then
      let first_time_difference := |apoapsis_times.headI - midpoint|
      let last_time_difference := |apoapsis_times.getLastI - midpoint|
      if first_time_difference > last_time_difference then
        reduceApoapsesAux midpoint number_of_orbits_to_include fuel
          apoapsis_times.tail apoapsis_altitudes.tail
      else if last_time_difference > first_time_difference then
        reduceApoapsesAux midpoint number_of_orbits_to_include fuel
          apoapsis_times.dropLast apoapsis_altitudes.dropLast
      else
        Except.error
          "Cannot reduce apoapsis list from 1 orbit. Instead, use trajectory.Get_Nearest_Apoapsis"
    else Except.ok (apoapsis_times, apoapsis_altitudes)

/-- The reduction loop of Get_All_Apoapsis_In_Range on the parallel lists
of apoapsis times and altitudes. -/
def reduceApoapses (midpoint : ℤ) (number_of_orbits_to_include : ℕ)
    (apoapsis_times : List ℤ) (apoapsis_altitudes : List ℚ) :
    Except String (List ℤ × List ℚ) :=
  reduceApoapsesAux midpoint number_of_orbits_to_include apoapsis_altitudes.length
    apoapsis_times apoapsis_altitudes

/-- Get_All_Apoapsis_In_Range from src/hermpy/trajectory.py.  The argument
alt models the altitude obtained from the SPICE position query at a sample
time (the euclidean norm of the spacecraft position; altitudes are exact
numbers here).  Returns the pair (apoapsis_altitudes, apoapsis_times), or
the ValueError raised by the reduction loop. -/
def Get_All_Apoapsis_In_Range (alt : ℤ → ℚ) (start_time end_time time_delta : ℤ)
    (number_of_orbits_to_include : ℕ) : Except String (List ℚ × List ℤ) :=
  let times := sampleTimes start_time end_time time_delta
  let altitudes := times.map alt
  let peak_indices := find_peaks altitudes
  let apoapsis_altitudes := peak_indices.map (fun i => altitudes.getD i 0)
  let apoapsis_times := peak_indices.map (fun i => times.getD i 0)
  if 0 < number_of_orbits_to_include then
    let midpoint := start_time + (end_time - start_time) / 2
    match reduceApoapses midpoint number_of_orbits_to_include
        apoapsis_times apoapsis_altitudes with
    | Except.error e => Except.error e
    | Except.ok (ts, alts) => Except.ok (alts, ts)
  else Except.ok (apoapsis_altitudes, apoapsis_times)

/-- Get_Nearest_Apoapsis from src/hermpy/trajectory.py.  The altitude
series covers the window from time - time_limit up to but excluding
time + time_limit; the peak whose time distance to the reference time is
minimal (first minimum on a tie, as np.argmin returns) is returned as a
(time, altitude) pair; with no peak the np.argmin call raises on the empty
distance list. -/
def Get_Nearest_Apoapsis (alt : ℤ → ℚ) (time time_delta time_limit : ℤ) :
    Except String (ℤ × ℚ) :=
  let search_start := time - time_limit
  let search_end := time + time_limit
  let times := sampleTimes search_start search_end time_delta
  let altitudes := times.map alt
  let peak_indices := find_peaks altitudes
  let time_distances := peak_indices.map (fun i => |time - times.getD i 0|)
  match argminAux time_distances with
  | none => Except.error "attempt to get argmin of an empty sequence"
  | some jv =>
    let closest_apoapsis_index := peak_indices.getD jv.1 0
    Except.ok (times.getD closest_apoapsis_index 0, altitudes.getD closest_apoapsis_index 0)

set_option maxRecDepth 10000

/-- Every time visited by the sampling loop lies at or after the loop
variable it was started from and strictly before the stop time, for a
positive step. -/
theorem sampleTimesAux_mem (stop delta : ℤ) (hdelta : 0 < delta) :
    ∀ (fuel : ℕ) (current t : ℤ), t ∈ sampleTimesAux stop delta fuel current →
      current ≤ t ∧ t < stop := by
  intro fuel
  induction fuel with
  | zero => intro current t ht; simp [sampleTimesAux] at ht
  | succ n ih =>
      intro current t ht
      rw [sampleTimesAux] at ht
      by_cases hc : current < stop
      · rw [if_pos hc] at ht
        rcases List.mem_cons.mp ht with h | h
        · omega
        · have := ih (current + delta) t h
          omega
      · rw [if_neg hc] at ht
        simp at ht

/-- argminAux returns none exactly on the empty list. -/
theorem argminAux_eq_none (l : List ℤ) : argminAux l = none ↔ l = [] := by
  cases l with
  | nil => simp [argminAux]
  | cons x xs =>
      simp only [argminAux]
      cases argminAux xs with
      | none => simp
      | some jv => cases jv with | mk j v => by_cases h : x ≤ v <;> simp [h]

/-- Specification of argminAux: the returned index is in range, the
returned value is the entry there, that value is a minimum of the list,
and every entry before the returned index is strictly larger (np.argmin
returns the first minimum). -/
theorem argminAux_spec (l : List ℤ) (j : ℕ) (v : ℤ) (h : argminAux l = some (j, v)) :
    j < l.length ∧ l.getD j 0 = v ∧ (∀ m, m < l.length → v ≤ l.getD m 0) ∧
      (∀ m, m < j → v < l.getD m 0) := by
  induction l generalizing j v with
  | nil => simp [argminAux] at h
  | cons x xs ih =>
      rw [argminAux] at h
      cases e : argminAux xs with
      | none =>
          rw [e] at h
          have hxs : xs = [] := (argminAux_eq_none xs).mp e
          subst hxs
          simp only [Option.some.injEq, Prod.mk.injEq] at h
          obtain ⟨rfl, rfl⟩ := h
          refine ⟨by simp, by simp, ?_, fun m hm => absurd hm (Nat.not_lt_zero m)⟩
          intro m hm
          have hm1 : m = 0 := by
            have : m < 1 := by simpa using hm
            omega
          subst hm1
          simp
      | some jv =>
          cases jv with
          | mk j0 v0 =>
              rw [e] at h
              obtain ⟨hj0, hget0, hmin0, hfirst0⟩ := ih j0 v0 e
              by_cases hx : x ≤ v0
              · simp only [hx, if_true, Option.some.injEq, Prod.mk.injEq] at h
                obtain ⟨rfl, rfl⟩ := h
                refine ⟨by simp, by simp, ?_, fun m hm => absurd hm (Nat.not_lt_zero m)⟩
                intro m hm
                cases m with
                | zero => simp
                | succ m0 =>
                    rw [List.getD_cons_succ]
                    have : m0 < xs.length := by simpa using hm
                    exact le_trans hx (hmin0 m0 this)
              · simp only [hx, if_false, Option.some.injEq, Prod.mk.injEq] at h
                obtain ⟨rfl, rfl⟩ := h
                refine ⟨by simpa using hj0, by simpa using hget0, ?_, ?_⟩
                · intro m hm
                  cases m with
                  | zero => rw [List.getD_cons_zero]; omega
                  | succ m0 =>
                      rw [List.getD_cons_succ]
                      have : m0 < xs.length := by simpa using hm
                      exact hmin0 m0 this
                · intro m hm
                  cases m with
                  | zero => rw [List.getD_cons_zero]; omega
                  | succ m0 =>
                      rw [List.getD_cons_succ]
                      exact hfirst0 m0 (by omega)

/-- CLAIM C6: every peak index reported by the detector is interior (never
the first or the last sample of the series) and its altitude is strictly
greater than both immediate neighbours. -/
theorem find_peaks_strict (altitudes : List ℚ) (i : ℕ) (hi : i ∈ find_peaks altitudes) :
    0 < i ∧ i + 1 < altitudes.length ∧
    altitudes.getD (i - 1) 0 < altitudes.getD i 0 ∧
    altitudes.getD (i + 1) 0 < altitudes.getD i 0 ∧
    i ≠ 0 ∧ i ≠ altitudes.length - 1 := by
  rw [find_peaks, List.mem_filter] at hi
  obtain ⟨-, hprop⟩ := hi
  have h := of_decide_eq_true hprop
  obtain ⟨h1, h2, h3, h4⟩ := h
  exact ⟨h1, h2, h3, h4, by omega, by omega⟩

/-- Concrete instance discharging the membership hypothesis of
find_peaks_strict with the series 0, 5, 1 and the peak at index 1. -/
theorem find_peaks_strict_witness :
    1 ∈ find_peaks [0, 5, 1] ∧
    (0 < 1 ∧ 1 + 1 < ([0, 5, 1] : List ℚ).length ∧
     ([0, 5, 1] : List ℚ).getD (1 - 1) 0 < ([0, 5, 1] : List ℚ).getD 1 0 ∧
     ([0, 5, 1] : List ℚ).getD (1 + 1) 0 < ([0, 5, 1] : List ℚ).getD 1 0 ∧
     1 ≠ 0 ∧ 1 ≠ ([0, 5, 1] : List ℚ).length - 1) :=
  ⟨by decide, find_peaks_strict [0, 5, 1] 1 (by decide)⟩

/-- CLAIM C5: when the peak detector finds no peak in the search window,
Get_Nearest_Apoapsis surfaces the error of the argmin over the empty
candidate list to the caller and never returns a (time, altitude) pair. -/
theorem get_nearest_apoapsis_no_peak (alt : ℤ → ℚ) (time time_delta time_limit : ℤ)
    (h : find_peaks (((sampleTimes (time - time_limit) (time + time_limit)
        time_delta)).map alt) = []) :
    Get_Nearest_Apoapsis alt time time_delta time_limit
      = Except.error "attempt to get argmin of an empty sequence" ∧
    ∀ p : ℤ × ℚ, Get_Nearest_Apoapsis alt time time_delta time_limit ≠ Except.ok p := by
  have herr : Get_Nearest_Apoapsis alt time time_delta time_limit
      = Except.error "attempt to get argmin of an empty sequence" := by
    rw [Get_Nearest_Apoapsis]
    rw [h]
    rfl
  exact ⟨herr, by intro p hp; rw [herr] at hp; exact Except.noConfusion hp⟩

/-- Concrete instance discharging the hypothesis of
get_nearest_apoapsis_no_peak with a constant altitude series (no peaks) on
the window from -120 to 120 sampled every 60 units. -/
theorem get_nearest_apoapsis_no_peak_witness :
    find_peaks ((sampleTimes ((0 : ℤ) - 120) (0 + 120) 60).map (fun _ => (0 : ℚ))) = [] ∧
    Get_Nearest_Apoapsis (fun _ => (0 : ℚ)) 0 60 120
      = Except.error "attempt to get argmin of an empty sequence" :=
  ⟨by decide, (get_nearest_apoapsis_no_peak (fun _ => (0 : ℚ)) 0 60 120 (by decide)).1⟩

/-- The reduction loop is insensitive to extra fuel: any fuel of at least
the current list length gives the canonical result. -/
theorem reduceApoapsesAux_fuel (midpoint : ℤ) (target : ℕ) :
    ∀ (fuel : ℕ) (times : List ℤ) (alts : List ℚ), alts.length ≤ fuel →
      reduceApoapsesAux midpoint target fuel times alts
        = reduceApoapses midpoint target times alts := by
  intro fuel
  induction fuel with
  | zero =>
      intro times alts hle
      have h0 : alts.length = 0 := by omega
      rw [reduceApoapses, h0]
  | succ n ih =>
      intro times alts hle
      rw [reduceApoapses]
      cases hlen : alts.length with
      | zero =>
          rw [reduceApoapsesAux, reduceApoapsesAux]
          rw [hlen]
          simp
      | succ m =>
          rw [reduceApoapsesAux, reduceApoapsesAux]
          rw [hlen]
          by_cases hg : target < m + 1
          · rw [if_pos hg, if_pos hg]
            have htail : alts.tail.length = m := by
              rw [List.length_tail, hlen]
              omega
            have hdrop : alts.dropLast.length = m := by
              rw [List.length_dropLast, hlen]
              omega
            by_cases h1 : |times.headI - midpoint| > |times.getLastI - midpoint|
            · rw [if_pos h1, if_pos h1]
              rw [ih times.tail alts.tail (by omega)]
              rw [reduceApoapses, htail]
            · rw [if_neg h1, if_neg h1]
              by_cases h2 : |times.getLastI - midpoint| > |times.headI - midpoint|
              · rw [if_pos h2, if_pos h2]
                rw [ih times.dropLast alts.dropLast (by omega)]
                rw [reduceApoapses, hdrop]
              · rw [if_neg h2, if_neg h2]
          · rw [if_neg hg, if_neg hg]

/-- A synthetic altitude profile with strict local maxima exactly at the
times 10, 70 and 130: constant zero elsewhere. -/
def altC3 : ℤ → ℚ := fun t => if t = 10 ∨ t = 70 ∨ t = 130 then 100 else 0

/-- CLAIM C3: while the detected apoapsis count exceeds a positive target
count, the reduction of Get_All_Apoapsis_In_Range removes the first peak
when its time is strictly farther from the interval midpoint than that of
the last peak, removes the last peak when that one is strictly farther, and
raises the ValueError on an exact tie; in particular the full pipeline on
an altitude series peaking at minutes 10, 70 and 130 of the interval from
0 to 140 with target count 2 raises the tie failure. -/
theorem reduce_apoapses_spec (midpoint : ℤ) (target : ℕ) (times : List ℤ)
    (alts : List ℚ) (htarget : 0 < target) (hlen : target < alts.length) :
    (|times.headI - midpoint| > |times.getLastI - midpoint| →
      reduceApoapses midpoint target times alts
        = reduceApoapses midpoint target times.tail alts.tail) ∧
    (|times.getLastI - midpoint| > |times.headI - midpoint| →
      reduceApoapses midpoint target times alts
        = reduceApoapses midpoint target times.dropLast alts.dropLast) ∧
    (|times.headI - midpoint| = |times.getLastI - midpoint| →
      reduceApoapses midpoint target times alts
        = Except.error
            "Cannot reduce apoapsis list from 1 orbit. Instead, use trajectory.Get_Nearest_Apoapsis") ∧
    Get_All_Apoapsis_In_Range altC3 0 140 1 2
      = Except.error
          "Cannot reduce apoapsis list from 1 orbit. Instead, use trajectory.Get_Nearest_Apoapsis" := by
  cases hlen0 : alts.length with
  | zero => omega
  | succ m =>
      have hg : target < m + 1 := by omega
      have htail : alts.tail.length = m := by rw [List.length_tail, hlen0]; omega
      have hdrop : alts.dropLast.length = m := by rw [List.length_dropLast, hlen0]; omega
      refine ⟨?_, ?_, ?_, by rfl⟩
      · intro h1
        rw [reduceApoapses, hlen0, reduceApoapsesAux, hlen0]
        rw [if_pos hg, if_pos h1]
        rw [reduceApoapsesAux_fuel midpoint target m times.tail alts.tail (by omega)]
      · intro h2
        have h1 : ¬ |times.headI - midpoint| > |times.getLastI - midpoint| := by omega
        rw [reduceApoapses, hlen0, reduceApoapsesAux, hlen0]
        rw [if_pos hg, if_neg h1, if_pos h2]
        rw [reduceApoapsesAux_fuel midpoint target m times.dropLast alts.dropLast (by omega)]
      · intro heq
        have h1 : ¬ |times.headI - midpoint| > |times.getLastI - midpoint| := by omega
        have h2 : ¬ |times.getLastI - midpoint| > |times.headI - midpoint| := by omega
        rw [reduceApoapses, hlen0, reduceApoapsesAux, hlen0]
        rw [if_pos hg, if_neg h1, if_neg h2]

/-- Concrete instance discharging the hypotheses of reduce_apoapses_spec:
apoapses at minutes 10, 70 and 130, midpoint 70, target count 2; the first
and last peaks are equidistant from the midpoint and the tie failure is
raised. -/
theorem reduce_apoapses_spec_witness :
    0 < 2 ∧ 2 < ([100, 100, 100] : List ℚ).length ∧
    |([10, 70, 130] : List ℤ).headI - 70| = |([10, 70, 130] : List ℤ).getLastI - 70| ∧
    reduceApoapses 70 2 [10, 70, 130] [100, 100, 100]
      = Except.error
          "Cannot reduce apoapsis list from 1 orbit. Instead, use trajectory.Get_Nearest_Apoapsis" :=
  ⟨by decide, by decide, by decide,
    (reduce_apoapses_spec 70 2 [10, 70, 130] [100, 100, 100]
      (by decide) (by decide)).2.2.1 (by decide)⟩

/-- The peak times of the nearest-apoapsis search: the sample times at the
indices reported by the peak detector over the search window. -/
def nearestPeakTimes (alt : ℤ → ℚ) (time time_delta time_limit : ℤ) : List ℤ :=
  let times := sampleTimes (time - time_limit) (time + time_limit) time_delta
  (find_peaks (times.map alt)).map (fun i => times.getD i 0)

/-- The selection step of Get_Nearest_Apoapsis: when np.argmin over the
peak time distances returns index j with value v, the sample time at the
j-th peak index realises the minimum absolute time distance among all peak
times, and every peak before it in time order is strictly farther. -/
theorem select_nearest_spec (time : ℤ) (ts : List ℤ) (pis : List ℕ) (j : ℕ) (v : ℤ)
    (e : argminAux (pis.map (fun i => |time - ts.getD i 0|)) = some (j, v)) :
    j < (pis.map (fun i => ts.getD i 0)).length ∧
    ts.getD (pis.getD j 0) 0 = (pis.map (fun i => ts.getD i 0)).getD j 0 ∧
    (∀ m, m < (pis.map (fun i => ts.getD i 0)).length →
      |time - ts.getD (pis.getD j 0) 0| ≤ |time - (pis.map (fun i => ts.getD i 0)).getD m 0|) ∧
    (∀ m, m < j →
      |time - ts.getD (pis.getD j 0) 0| < |time - (pis.map (fun i => ts.getD i 0)).getD m 0|) := by
  obtain ⟨hj, hgd, hmin, hfirst⟩ := argminAux_spec _ j v e
  rw [List.length_map] at hj
  have hconvf : ∀ m, (hm : m < pis.length) →
      (pis.map (fun i => |time - ts.getD i 0|)).getD m 0
        = |time - ts.getD (pis.getD m 0) 0| := by
    intro m hm
    rw [List.getD_eq_getElem _ _ (by rw [List.length_map]; exact hm)]
    rw [List.getElem_map]
    rw [List.getD_eq_getElem _ _ hm]
  have hconvg : ∀ m, (hm : m < pis.length) →
      (pis.map (fun i => ts.getD i 0)).getD m 0 = ts.getD (pis.getD m 0) 0 := by
    intro m hm
    rw [List.getD_eq_getElem _ _ (by rw [List.length_map]; exact hm)]
    rw [List.getElem_map]
    rw [List.getD_eq_getElem _ _ hm]
  have hv : v = |time - ts.getD (pis.getD j 0) 0| := by
    rw [← hgd, hconvf j hj]
  refine ⟨by rw [List.length_map]; exact hj, (hconvg j hj).symm, ?_, ?_⟩
  · intro m hm
    rw [List.length_map] at hm
    have hle := hmin m (by rw [List.length_map]; exact hm)
    rw [hconvf m hm] at hle
    rw [hconvg m hm, ← hv]
    exact hle
  · intro m hm
    have hmp : m < pis.length := lt_trans hm hj
    have hlt := hfirst m hm
    rw [hconvf m hmp] at hlt
    rw [hconvg m hmp, ← hv]
    exact hlt

/-- A synthetic altitude profile with strict local maxima exactly at the
times -180 and 60: constant zero elsewhere. -/
def altC4 : ℤ → ℚ := fun t => if t = -180 ∨ t = 60 then 10 else 0

/-- CLAIM C4: Get_Nearest_Apoapsis samples the half-open window from
time - time_limit up to but excluding time + time_limit, and whenever it
returns a pair, the returned time is a detected peak time of minimum
absolute distance to the reference time, the first such minimum in time
order; in particular with peaks at time - 180 and time + 60 it returns the
time + 60 peak. -/
theorem get_nearest_apoapsis_spec (alt : ℤ → ℚ) (time time_delta time_limit : ℤ)
    (hdelta : 0 < time_delta) :
    (∀ t ∈ sampleTimes (time - time_limit) (time + time_limit) time_delta,
        time - time_limit ≤ t ∧ t < time + time_limit) ∧
    (∀ tp ap, Get_Nearest_Apoapsis alt time time_delta time_limit = Except.ok (tp, ap) →
      ∃ j, j < (nearestPeakTimes alt time time_delta time_limit).length ∧
        tp = (nearestPeakTimes alt time time_delta time_limit).getD j 0 ∧
        (∀ m, m < (nearestPeakTimes alt time time_delta time_limit).length →
          |time - tp| ≤ |time - (nearestPeakTimes alt time time_delta time_limit).getD m 0|) ∧
        (∀ m, m < j →
          |time - tp| < |time - (nearestPeakTimes alt time time_delta time_limit).getD m 0|)) ∧
    Get_Nearest_Apoapsis altC4 0 60 720 = Except.ok (60, 10) := by
  refine ⟨?_, ?_, by rfl⟩
  · intro t ht
    exact sampleTimesAux_mem _ _ hdelta _ _ t ht
  · intro tp ap h
    rw [Get_Nearest_Apoapsis] at h
    cases e : argminAux
        ((find_peaks ((sampleTimes (time - time_limit) (time + time_limit)
            time_delta).map alt)).map
          (fun i => |time - (sampleTimes (time - time_limit) (time + time_limit)
            time_delta).getD i 0|)) with
    | none =>
        rw [e] at h
        simp at h
    | some jv =>
        cases jv with
        | mk j v =>
            rw [e] at h
            simp only [Except.ok.injEq, Prod.mk.injEq] at h
            obtain ⟨htp, -⟩ := h
            obtain ⟨hj, heq, hmin, hfirst⟩ := select_nearest_spec time _ _ j v e
            refine ⟨j, hj, ?_, ?_, ?_⟩
            · rw [← htp]
              exact heq
            · rw [← htp]
              exact hmin
            · rw [← htp]
              exact hfirst

/-- Concrete instance discharging the hypothesis of
get_nearest_apoapsis_spec: step 60 on the window from -720 to 720 around
the reference time 0, with synthetic apoapses at -180 and 60; the returned
apoapsis is the one at 60. -/
theorem get_nearest_apoapsis_spec_witness :
    (0 : ℤ) < 60 ∧ Get_Nearest_Apoapsis altC4 0 60 720 = Except.ok (60, 10) :=
  ⟨by decide, (get_nearest_apoapsis_spec altC4 0 60 720 (by decide)).2.2⟩

/-- The argument shape of Get_Range_From_Date: either a single datetime or
a list of datetimes (the Python parameter is a union type). -/
inductive DateInput where
  | single (date : ℚ)
  | many (dates : List ℚ)

/-- The result shape of Get_Range_From_Date: a bare scalar distance or a
list of distances. -/
inductive RangeResult where
  | scalar (distance : ℝ)
  | ofList (distances : List ℝ)

/-- The per-date distance computed inside the loop of Get_Range_From_Date:
the euclidean norm of the spacecraft position returned by the ephemeris
query at that date. -/
noncomputable def spacecraft_distance (spk : ℚ → Vec3) (date : ℚ) : ℝ :=
  Real.sqrt ((spk date).x ^ 2 + (spk date).y ^ 2 + (spk date).z ^ 2)

/-- Get_Range_From_Date from src/hermpy/trajectory.py.  A single datetime
is first wrapped into a one-element list; after the distance loop, a
distance list of length one is unwrapped and returned as a bare scalar,
any other list is returned as is. -/
noncomputable def Get_Range_From_Date (spk : ℚ → Vec3) (dates : DateInput) : RangeResult :=
  let ds :=
    match dates with
    | DateInput.single d => [d]
    | DateInput.many ds => ds
  let distances := ds.map (spacecraft_distance spk)
  if distances.length = 1 then RangeResult.scalar distances.headI
  else RangeResult.ofList distances

/-- CLAIM C10: Get_Range_From_Date is shape polymorphic: a single datetime
and a one-element list both give a bare scalar distance, while a list of
at least two datetimes gives a list of distances of the same length, in
input order. -/
theorem get_range_from_date_shape (spk : ℚ → Vec3) :
    (∀ d, Get_Range_From_Date spk (DateInput.single d)
        = RangeResult.scalar (spacecraft_distance spk d)) ∧
    (∀ d, Get_Range_From_Date spk (DateInput.many [d])
        = RangeResult.scalar (spacecraft_distance spk d)) ∧
    (∀ ds, 2 ≤ ds.length →
      Get_Range_From_Date spk (DateInput.many ds)
          = RangeResult.ofList (ds.map (spacecraft_distance spk)) ∧
        (ds.map (spacecraft_distance spk)).length = ds.length) := by
  refine ⟨fun d => rfl, fun d => rfl, ?_⟩
  intro ds hds
  have hlen : (ds.map (spacecraft_distance spk)).length = ds.length := List.length_map ds _
  constructor
  · rw [Get_Range_From_Date]
    rw [if_neg (by rw [hlen]; omega)]
  · exact hlen

/-- Concrete instance discharging the hypothesis of
get_range_from_date_shape with a two-element date list. -/
theorem get_range_from_date_shape_witness :
    2 ≤ ([0, 1] : List ℚ).length ∧
    (Get_Range_From_Date (fun _ => ⟨1, 0, 0⟩) (DateInput.many [0, 1])
        = RangeResult.ofList (([0, 1] : List ℚ).map
            (spacecraft_distance (fun _ => ⟨1, 0, 0⟩))) ∧
      (([0, 1] : List ℚ).map (spacecraft_distance (fun _ => ⟨1, 0, 0⟩))).length
        = ([0, 1] : List ℚ).length) :=
  ⟨by decide, (get_range_from_date_shape (fun _ => ⟨1, 0, 0⟩)).2.2 [0, 1] (by decide)⟩
